import Mathlib

/-!
Verification of the numeric core of the ReceptiViz repository
(src/receptual/processing/core/encoder.py).

Shallow embedding conventions:
* numpy arrays are modelled by `NDArray`: a shape (list of axis lengths)
  together with the row-major flattened buffer of rational entries.
  Exact rational arithmetic stands in for float arithmetic, so the
  summation order of accumulation loops is immaterial.
* Python exceptions are modelled by `PyErr`; a function that can raise
  returns `Except PyErr _`.  An `assert cond, msg` statement is an
  early-return of `.error (.assertionError msg)` when `cond` fails.
* The accumulation loop of `encoder` (for t in range(T): for k in range(K):
  if t - k >= 0: result[t] += stimulus[t-k] * receptive_field[K-1-k])
  adds, for each output position, one product per loop iteration that
  touches it; over exact rationals the accumulated value is the indexed
  sum written in `encoderEntry`.  The guard t - k >= 0 is k <= t.
-/

/-- A numpy ndarray: `shape` is the tuple of axis lengths and `data` the
row-major flattened buffer. -/
structure NDArray where
  shape : List Nat
  data : List ℚ
deriving Repr, DecidableEq

/-- Number of axes (numpy ndim). -/
def NDArray.ndim (a : NDArray) : Nat := a.shape.length

/-- A well-formed buffer holds exactly one entry per index tuple. -/
def NDArray.wf (a : NDArray) : Prop := a.data.length = a.shape.prod

/-- Entry of the flattened buffer (0 when out of range; all uses in the
development stay in range for well-formed arrays). -/
def NDArray.get (a : NDArray) (i : Nat) : ℚ := a.data.getD i 0

/-- Python exceptions raised by the translated code. -/
inductive PyErr where
  | assertionError (msg : String)
  | indexError (msg : String)
  | valueError (msg : String)
  | nameError (msg : String)
deriving Repr, DecidableEq

deriving instance DecidableEq for Except

/-- Value of `result[t, n, j]` (flat spatial position `j`) accumulated by the
double loop of `encoder`: one term per iteration `(t, k)` with `k ≤ t`
(the Python guard `t - k >= 0`).  `Dv` is the flattened spatial size. -/
def convEntry (stimulus receptive_field : NDArray) (K N Dv t n j : Nat) : ℚ :=
  ∑ k ∈ Finset.range K,
    if k ≤ t then
      stimulus.get ((t - k) * Dv + j) *
        receptive_field.get (((K - 1 - k) * N + n) * Dv + j)
    else 0

/-- Value of the returned activity at `[t, n]`: the loop accumulation
followed by the spatial sum `np.sum(result, axis=(2, ...))` (a no-op when
there are no spatial axes, where `Dv = 1`). -/
def encoderEntry (stimulus receptive_field : NDArray) (K N Dv t n : Nat) : ℚ :=
  ∑ j ∈ Finset.range Dv, convEntry stimulus receptive_field K N Dv t n j

/-- Translation of `encoder(stimulus, receptive_field)` from
src/receptual/processing/core/encoder.py (lines 20-73).

The three asserts are translated in source order; the indexing
`stimulus.shape[0]` on a 0-d stimulus raises IndexError in Python, which
the empty-shape match arm models.  On success the function returns the
`(T, N)` activity array. -/
def encoder (stimulus receptive_field : NDArray) : Except PyErr NDArray :=
  if stimulus.ndim + 1 ≠ receptive_field.ndim then
    .error (.assertionError "Dimensions of arrays are not compatible")
  else if 1 < stimulus.ndim ∧ stimulus.shape.drop 1 ≠ receptive_field.shape.drop 2 then
    .error (.assertionError "Stimulus and receptive field must have the same spatial dimensions")
  else
    match stimulus.shape with
    | [] => .error (.indexError "tuple index out of range")
    | T :: spat =>
      let K := receptive_field.shape.headD 0
      if T > K then
        let N := (receptive_field.shape.drop 1).headD 0
        let Dv := spat.prod
        .ok ⟨[T, N], (List.range (T * N)).map fun i =>
          encoderEntry stimulus receptive_field K N Dv (i / N) (i % N)⟩
      else
        .error (.assertionError "Stimulus length must be greater than receptive field length")

/-- Translation of `receptive_field(stimulus, activity, kernel_size)` from
src/receptual/processing/core/encoder.py (lines 154-236).

After the three asserts (translated in source order) the Python body can
never return: it is truncated mid-computation and line 226 references the
undefined name `D` (lines 229-235 also reference the undefined `X` and
`spatial_dims`, and there is no return statement).  The statements before
line 226 can themselves raise:
* `np.zeros((K, N) + stimulus.shape[1:])` raises ValueError when
  `kernel_size` is negative;
* the STA loop body `sta[-k-1] += stim_centered[t-k] * activity[t]`
  (shapes `(N, *spat) += (1, *spat) * (N,)`), and equally the in-place
  normalization `sta /= activity.sum(axis=0)`, raise a broadcast
  ValueError exactly when the stimulus has spatial axes whose last length
  differs from `N` while `N ≠ 1`.
Array arithmetic itself (centering, accumulation, division) raises no
exception in numpy, so on every other path execution reaches line 226 and
raises NameError. -/
def receptive_field (stimulus activity : NDArray) (kernel_size : ℤ) : Except PyErr NDArray :=
  if activity.ndim ≠ 2 then
    .error (.assertionError "Activity must be a 2D array with shape (T, N)")
  else
    match stimulus.shape with
    | [] => .error (.indexError "tuple index out of range")
    | T :: spat =>
      if T ≠ activity.shape.headD 0 then
        .error (.assertionError "Stimulus and activity must have the same time dimension")
      else if ¬ (kernel_size < (T : ℤ)) then
        .error (.assertionError "Kernel size must be less than the stimulus length")
      else
        let N := (activity.shape.drop 1).headD 0
        if kernel_size < 0 then
          .error (.valueError "negative dimensions are not allowed")
        else if spat ≠ [] ∧ spat.getLastD 0 ≠ N ∧ N ≠ 1 then
          .error (.valueError "operands could not be broadcast together")
        else
          .error (.nameError "NameError: name D is not defined")

/-- True exactly when the computation raised a NameError. -/
def isNameErrorResult : Except PyErr NDArray → Bool
  | .error (.nameError _) => true
  | _ => false

/-!
Store-passing refinement of the two functions, used to express mutation
behaviour.  Each numpy buffer lives at an index of a `Store`; allocating
operations (np.zeros, array arithmetic producing a fresh array, views that
are never written through) bind fresh indices, and every in-place
statement of the source (`result[t] += ...`, `sta[-k-1] += ...`,
`sta /= ...`) becomes a `Store.write` whose target is recorded from the
source.  The buffer contents written by a loop are its accumulated
values, which over exact rationals are the indexed sums below.
-/

/-- A heap of numpy buffers: `mem i` is the array at reference `i`,
references below `next` are the live ones, and `next` is fresh. -/
structure Store where
  mem : Nat → NDArray
  next : Nat

/-- Bind a fresh reference to a newly constructed array. -/
def Store.alloc (σ : Store) (a : NDArray) : Store × Nat :=
  (⟨fun j => if j = σ.next then a else σ.mem j, σ.next + 1⟩, σ.next)

/-- Overwrite the array at reference `i` (an in-place numpy statement). -/
def Store.write (σ : Store) (i : Nat) (a : NDArray) : Store :=
  ⟨fun j => if j = i then a else σ.mem j, σ.next⟩

/-- Store-passing version of `encoder`.  Returns the final heap together
with either the raised exception or the reference of the returned array.
`result = np.zeros(...)` allocates; the double accumulation loop writes
only to `result`; when spatial axes exist, `np.sum(result, axis=...)`
allocates the `(T, N)` array that is returned. -/
def encoderSt (σ : Store) (stimulusId rfId : Nat) : Store × Except PyErr Nat :=
  let stimulus := σ.mem stimulusId
  let rf := σ.mem rfId
  if stimulus.ndim + 1 ≠ rf.ndim then
    (σ, .error (.assertionError "Dimensions of arrays are not compatible"))
  else if 1 < stimulus.ndim ∧ stimulus.shape.drop 1 ≠ rf.shape.drop 2 then
    (σ, .error (.assertionError "Stimulus and receptive field must have the same spatial dimensions"))
  else
    match stimulus.shape with
    | [] => (σ, .error (.indexError "tuple index out of range"))
    | T :: spat =>
      let K := rf.shape.headD 0
      if T > K then
        let N := (rf.shape.drop 1).headD 0
        let Dv := spat.prod
        let resultShape := T :: rf.shape.drop 1
        let p1 := σ.alloc ⟨resultShape, List.replicate resultShape.prod 0⟩
        let σ2 := p1.1.write p1.2 ⟨resultShape, (List.range (T * N * Dv)).map fun i =>
          convEntry stimulus rf K N Dv (i / (N * Dv)) (i / Dv % N) (i % Dv)⟩
        if 2 < resultShape.length then
          let p3 := σ2.alloc ⟨[T, N], (List.range (T * N)).map fun i =>
            encoderEntry stimulus rf K N Dv (i / N) (i % N)⟩
          (p3.1, .ok p3.2)
        else
          (σ2, .ok p1.2)
      else
        (σ, .error (.assertionError "Stimulus length must be greater than receptive field length"))

/-- Entry `i` (row-major over shape `(T, *spat)`) of
`stim_centered = stimulus - stimulus.mean(axis=0)`:
the entry minus the mean of its time column.  `Dv` is the flattened
spatial size, so the column of entry `i` is `i % Dv`. -/
def centeredEntry (stimulus : NDArray) (T Dv i : Nat) : ℚ :=
  stimulus.get i - (∑ u ∈ Finset.range T, stimulus.get (u * Dv + i % Dv)) / T

/-- Neuron index paired with spatial position `s` when broadcasting
`activity[t]` (shape `(N,)`) against the spatial block in the STA loop
and the normalization of `receptive_field`: with no spatial axes the
neuron axis itself is hit (`n`); with spatial axes the last spatial axis
(length `sd`, position `s % sd`) is paired against `(N,)`, which after
the guard means entrywise when `sd = N` and constant index 0 when
`N = 1`. -/
def staNeuronIdx (noSpatial : Bool) (N sd n s : Nat) : Nat :=
  if noSpatial then n else if N = 1 then 0 else s % sd

/-- Value of `sta[k2, n, s]` (flat spatial position `s`) accumulated by
the STA loop of `receptive_field`: iteration `(t, k)` with `k ≤ t`
adds `stim_centered[t-k] * activity[t]` into `sta[-k-1]`, that is into
`k2 = K-1-k`. -/
def staEntry (stimulus activity : NDArray) (T K N Dv sd : Nat) (noSpatial : Bool)
    (k2 n s : Nat) : ℚ :=
  ∑ t ∈ Finset.range T, ∑ k ∈ Finset.range K,
    if k ≤ t ∧ K - 1 - k = k2 then
      centeredEntry stimulus T Dv ((t - k) * Dv + s) *
        activity.get (t * N + staNeuronIdx noSpatial N sd n s)
    else 0

/-- Value of `sta[k2, n, s]` after `sta /= activity.sum(axis=0)` (the
divisor is broadcast with the same pairing as the loop). -/
def staDivEntry (stimulus activity : NDArray) (T K N Dv sd : Nat) (noSpatial : Bool)
    (k2 n s : Nat) : ℚ :=
  staEntry stimulus activity T K N Dv sd noSpatial k2 n s /
    ∑ t ∈ Finset.range T, activity.get (t * N + staNeuronIdx noSpatial N sd n s)

/-- Store-passing version of `receptive_field`.  The centering and the
two views allocate fresh buffers; the STA loop and the in-place
normalization write only to `sta`; every control path ends in a raised
exception, exactly as in the plain translation. -/
def receptive_fieldSt (σ : Store) (stimulusId activityId : Nat) (kernel_size : Int) :
    Store × Except PyErr Nat :=
  let stimulus := σ.mem stimulusId
  let activity := σ.mem activityId
  if activity.ndim ≠ 2 then
    (σ, .error (.assertionError "Activity must be a 2D array with shape (T, N)"))
  else
    match stimulus.shape with
    | [] => (σ, .error (.indexError "tuple index out of range"))
    | T :: spat =>
      if T ≠ activity.shape.headD 0 then
        (σ, .error (.assertionError "Stimulus and activity must have the same time dimension"))
      else if ¬ (kernel_size < (T : Int)) then
        (σ, .error (.assertionError "Kernel size must be less than the stimulus length"))
      else
        let N := (activity.shape.drop 1).headD 0
        let Dv := spat.prod
        let p1 := σ.alloc ⟨T :: spat, (List.range (T * Dv)).map fun i =>
          centeredEntry stimulus T Dv i⟩
        let p2 := p1.1.alloc ⟨T :: 1 :: spat, (p1.1.mem p1.2).data⟩
        if kernel_size < 0 then
          (p2.1, .error (.valueError "negative dimensions are not allowed"))
        else
          let K := kernel_size.toNat
          let p3 := p2.1.alloc ⟨K :: N :: spat, List.replicate (K * N * Dv) 0⟩
          if spat ≠ [] ∧ spat.getLastD 0 ≠ N ∧ N ≠ 1 then
            (p3.1, .error (.valueError "operands could not be broadcast together"))
          else
            let sd := spat.getLastD 1
            let σ4 := p3.1.write p3.2 ⟨K :: N :: spat, (List.range (K * N * Dv)).map fun i =>
              staEntry stimulus activity T K N Dv sd spat.isEmpty
                (i / (N * Dv)) (i / Dv % N) (i % Dv)⟩
            let σ5 := σ4.write p3.2 ⟨K :: N :: spat, (List.range (K * N * Dv)).map fun i =>
              staDivEntry stimulus activity T K N Dv sd spat.isEmpty
                (i / (N * Dv)) (i / Dv % N) (i % Dv)⟩
            let p6 := σ5.alloc ⟨[T, Dv], (σ5.mem p1.2).data⟩
            (p6.1, .error (.nameError "NameError: name D is not defined"))

lemma Store.next_alloc (σ : Store) (a : NDArray) : (σ.alloc a).1.next = σ.next + 1 := rfl

lemma Store.snd_alloc (σ : Store) (a : NDArray) : (σ.alloc a).2 = σ.next := rfl

lemma Store.next_write (σ : Store) (i : Nat) (a : NDArray) : (σ.write i a).next = σ.next := rfl

lemma Store.mem_alloc_lt (σ : Store) (a : NDArray) (j : Nat) (h : j < σ.next) :
    (σ.alloc a).1.mem j = σ.mem j := by
  simp only [Store.alloc]
  rw [if_neg (by omega)]

lemma Store.mem_write_lt (σ : Store) (i : Nat) (a : NDArray) (j : Nat) (h : j < i) :
    (σ.write i a).mem j = σ.mem j := by
  simp only [Store.write]
  rw [if_neg (by omega)]

/-- No reference live before a call to `encoderSt` is overwritten by it:
all of its writes target the freshly allocated `result`. -/
lemma encoderSt_frame (σ : Store) (stimulusId rfId : Nat) (j : Nat) (h : j < σ.next) :
    (encoderSt σ stimulusId rfId).1.mem j = σ.mem j := by
  simp only [encoderSt]
  repeat' split
  · rfl
  · rfl
  · rfl
  · rw [Store.mem_alloc_lt _ _ _ (by simp only [Store.next_write, Store.next_alloc]; omega),
      Store.mem_write_lt _ _ _ _ (by simp only [Store.snd_alloc]; omega),
      Store.mem_alloc_lt _ _ _ h]
  · rw [Store.mem_write_lt _ _ _ _ (by simp only [Store.snd_alloc]; omega),
      Store.mem_alloc_lt _ _ _ h]
  · rfl

/-- A reference returned by `encoderSt` is fresh: it was allocated during
the call, not taken from the live heap. -/
lemma encoderSt_fresh (σ : Store) (stimulusId rfId : Nat) (r : Nat)
    (h : (encoderSt σ stimulusId rfId).2 = .ok r) : σ.next ≤ r := by
  revert h
  simp only [encoderSt]
  repeat' split
  all_goals intro h
  all_goals cases h
  · simp only [Store.snd_alloc, Store.next_write, Store.next_alloc]
    omega
  · simp only [Store.snd_alloc]
    omega

/-- No reference live before a call to `receptive_fieldSt` is overwritten
by it, on any of its (always raising) control paths: all of its writes
target the freshly allocated `sta`. -/
lemma receptive_fieldSt_frame (σ : Store) (stimulusId activityId : Nat) (kernel_size : Int)
    (j : Nat) (h : j < σ.next) :
    (receptive_fieldSt σ stimulusId activityId kernel_size).1.mem j = σ.mem j := by
  simp only [receptive_fieldSt]
  repeat' split
  · rfl
  · rfl
  · rfl
  · rfl
  · rw [Store.mem_alloc_lt _ _ _ (by simp only [Store.next_alloc]; omega),
      Store.mem_alloc_lt _ _ _ h]
  · rw [Store.mem_alloc_lt _ _ _ (by simp only [Store.next_alloc]; omega),
      Store.mem_alloc_lt _ _ _ (by simp only [Store.next_alloc]; omega),
      Store.mem_alloc_lt _ _ _ h]
  · rw [Store.mem_alloc_lt _ _ _ (by simp only [Store.next_write, Store.next_alloc]; omega),
      Store.mem_write_lt _ _ _ _ (by simp only [Store.snd_alloc, Store.next_alloc]; omega),
      Store.mem_write_lt _ _ _ _ (by simp only [Store.snd_alloc, Store.next_alloc]; omega),
      Store.mem_alloc_lt _ _ _ (by simp only [Store.next_alloc]; omega),
      Store.mem_alloc_lt _ _ _ (by simp only [Store.next_alloc]; omega),
      Store.mem_alloc_lt _ _ _ h]

/-- Claim C10: every call to `encoder` and to the kernel estimator leaves
all of its input arrays unchanged — the writes performed by either
function target only buffers allocated during the call, on success and
on error paths alike — and `encoder` returns a newly constructed array,
never one of its arguments. -/
theorem encoder_receptive_field_no_mutation (σ : Store)
    (stimulusId rfId activityId : Nat) (kernel_size : Int)
    (hs : stimulusId < σ.next) (hr : rfId < σ.next) (ha : activityId < σ.next) :
    ((encoderSt σ stimulusId rfId).1.mem stimulusId = σ.mem stimulusId ∧
      (encoderSt σ stimulusId rfId).1.mem rfId = σ.mem rfId ∧
      ∀ r, (encoderSt σ stimulusId rfId).2 = .ok r → r ≠ stimulusId ∧ r ≠ rfId) ∧
    ((receptive_fieldSt σ stimulusId activityId kernel_size).1.mem stimulusId =
        σ.mem stimulusId ∧
      (receptive_fieldSt σ stimulusId activityId kernel_size).1.mem activityId =
        σ.mem activityId) := by
  refine ⟨⟨encoderSt_frame σ stimulusId rfId stimulusId hs,
    encoderSt_frame σ stimulusId rfId rfId hr, fun r hok => ?_⟩,
    receptive_fieldSt_frame σ stimulusId activityId kernel_size stimulusId hs,
    receptive_fieldSt_frame σ stimulusId activityId kernel_size activityId ha⟩
  have := encoderSt_fresh σ stimulusId rfId r hok
  omega

/-- Witness for C10 at a concrete two-array heap. -/
theorem encoder_receptive_field_no_mutation_witness :
    (((encoderSt ⟨fun _ => ⟨[3], [1, 2, 3]⟩, 2⟩ 0 1).1.mem 0 =
        Store.mem ⟨fun _ => ⟨[3], [1, 2, 3]⟩, 2⟩ 0 ∧
      (encoderSt ⟨fun _ => ⟨[3], [1, 2, 3]⟩, 2⟩ 0 1).1.mem 1 =
        Store.mem ⟨fun _ => ⟨[3], [1, 2, 3]⟩, 2⟩ 1 ∧
      ∀ r, (encoderSt ⟨fun _ => ⟨[3], [1, 2, 3]⟩, 2⟩ 0 1).2 = .ok r → r ≠ 0 ∧ r ≠ 1) ∧
    ((receptive_fieldSt ⟨fun _ => ⟨[3], [1, 2, 3]⟩, 2⟩ 0 1 2).1.mem 0 =
        Store.mem ⟨fun _ => ⟨[3], [1, 2, 3]⟩, 2⟩ 0 ∧
      (receptive_fieldSt ⟨fun _ => ⟨[3], [1, 2, 3]⟩, 2⟩ 0 1 2).1.mem 1 =
        Store.mem ⟨fun _ => ⟨[3], [1, 2, 3]⟩, 2⟩ 1)) :=
  encoder_receptive_field_no_mutation ⟨fun _ => ⟨[3], [1, 2, 3]⟩, 2⟩ 0 1 1 2
    (by decide) (by decide) (by decide)

/-- On inputs whose shapes satisfy all three asserts, `encoder` reduces to
its success value. -/
lemma encoder_ok_eq (stimulus rf : NDArray) (T K N : Nat) (spat : List Nat)
    (hs : stimulus.shape = T :: spat) (hw : rf.shape = K :: N :: spat) (hK : K < T) :
    encoder stimulus rf = .ok ⟨[T, N], (List.range (T * N)).map fun i =>
      encoderEntry stimulus rf K N spat.prod (i / N) (i % N)⟩ := by
  simp [encoder, NDArray.ndim, hs, hw, hK]

lemma map_range_getD (m : Nat) (f : Nat → ℚ) (i : Nat) (h : i < m) :
    (((List.range m).map f).getD i 0) = f i := by
  rw [List.getD_eq_getElem?_getD, List.getElem?_map, List.getElem?_range h]
  rfl

lemma rowcol_div (t n N : Nat) (hn : n < N) : (t * N + n) / N = t := by
  rw [Nat.mul_comm t N, Nat.mul_add_div (by omega), Nat.div_eq_of_lt hn]
  omega

lemma rowcol_mod (t n N : Nat) (hn : n < N) : (t * N + n) % N = n := by
  rw [Nat.mul_comm t N, Nat.mul_add_mod, Nat.mod_eq_of_lt hn]

lemma rowcol_lt (t n T N : Nat) (ht : t < T) (hn : n < N) : t * N + n < T * N :=
  calc t * N + n < t * N + N := by omega
    _ = (t + 1) * N := by ring
    _ ≤ T * N := Nat.mul_le_mul_right N (by omega)

/-- The row-major entry `(t, n)` of the activity returned by `encoder`. -/
lemma encoder_ok_get (stimulus rf : NDArray) (T K N : Nat) (spat : List Nat)
    (hs : stimulus.shape = T :: spat) (hw : rf.shape = K :: N :: spat) (hK : K < T)
    (t n : Nat) (ht : t < T) (hn : n < N) :
    ∃ A, encoder stimulus rf = .ok A ∧ A.shape = [T, N] ∧ A.data.length = T * N ∧
      A.get (t * N + n) = encoderEntry stimulus rf K N spat.prod t n := by
  refine ⟨_, encoder_ok_eq stimulus rf T K N spat hs hw hK, rfl, by simp, ?_⟩
  show (((List.range (T * N)).map fun i =>
    encoderEntry stimulus rf K N spat.prod (i / N) (i % N)).getD (t * N + n) 0) = _
  rw [map_range_getD _ _ _ (rowcol_lt t n T N ht hn), rowcol_div t n N hn,
    rowcol_mod t n N hn]

/-- The accumulated-then-spatially-summed entry equals the lag-major double
sum of the specification (sum interchange over exact rationals). -/
lemma encoderEntry_eq_lag_sum (stimulus rf : NDArray) (K N Dv t n : Nat) :
    encoderEntry stimulus rf K N Dv t n =
      ∑ k ∈ Finset.range K, if k ≤ t then
        ∑ j ∈ Finset.range Dv,
          stimulus.get ((t - k) * Dv + j) * rf.get (((K - 1 - k) * N + n) * Dv + j)
      else 0 := by
  rw [encoderEntry]
  simp only [convEntry]
  rw [Finset.sum_comm]
  refine Finset.sum_congr rfl fun k _ => ?_
  split
  · rfl
  · exact Finset.sum_const_zero

/-- Claim C3: for every stimulus `S` of shape `(T, *spatial)` and kernel
`W` of shape `(K, N, *spatial)` with matching spatial shapes and `K < T`,
`encoder(S, W)` returns an array `A` of shape `(T, N)` whose entries
satisfy `A[t, n] = Σ_k Σ_spatial S[t-k, spatial] * W[K-1-k, n, spatial]`,
with terms where `t - k < 0` contributing zero (spatial positions are
enumerated row-major by `j < spat.prod`). -/
theorem encoder_functional_correctness (stimulus rf : NDArray) (T K N : Nat)
    (spat : List Nat)
    (hs : stimulus.shape = T :: spat) (hw : rf.shape = K :: N :: spat) (hK : K < T)
    (t n : Nat) (ht : t < T) (hn : n < N) :
    ∃ A, encoder stimulus rf = .ok A ∧ A.shape = [T, N] ∧ A.data.length = T * N ∧
      A.get (t * N + n) =
        ∑ k ∈ Finset.range K, if k ≤ t then
          ∑ j ∈ Finset.range spat.prod,
            stimulus.get ((t - k) * spat.prod + j) *
              rf.get (((K - 1 - k) * N + n) * spat.prod + j)
        else 0 := by
  obtain ⟨A, hA, hsh, hlen, hget⟩ :=
    encoder_ok_get stimulus rf T K N spat hs hw hK t n ht hn
  exact ⟨A, hA, hsh, hlen, hget.trans (encoderEntry_eq_lag_sum stimulus rf K N spat.prod t n)⟩

/-- Witness for C3: a 1-D spatial stimulus of shape `(4, 2)` with a
`(2, 1, 2)` kernel, read at `t = 2`, `n = 0`. -/
theorem encoder_functional_correctness_witness :
    ∃ A, encoder ⟨[4, 2], [1, 2, 3, 4, 5, 6, 7, 8]⟩ ⟨[2, 1, 2], [1, 0, 2, 1]⟩ = .ok A ∧
      A.shape = [4, 1] ∧ A.data.length = 4 * 1 ∧
      A.get (2 * 1 + 0) =
        ∑ k ∈ Finset.range 2, if k ≤ 2 then
          ∑ j ∈ Finset.range ([2] : List Nat).prod,
            NDArray.get ⟨[4, 2], [1, 2, 3, 4, 5, 6, 7, 8]⟩ ((2 - k) * ([2] : List Nat).prod + j) *
              NDArray.get ⟨[2, 1, 2], [1, 0, 2, 1]⟩ (((2 - 1 - k) * 1 + 0) * ([2] : List Nat).prod + j)
        else 0 :=
  encoder_functional_correctness ⟨[4, 2], [1, 2, 3, 4, 5, 6, 7, 8]⟩ ⟨[2, 1, 2], [1, 0, 2, 1]⟩
    4 2 1 [2] rfl rfl (by omega) 2 0 (by omega) (by omega)

/-- Claim C7 (causality): if two stimuli of the same shape agree at every
time `t ≤ t0`, the activities they encode (with any one kernel) agree on
the whole row `t0`. -/
theorem encoder_causality (stimulus stimulus2 rf : NDArray) (T K N : Nat)
    (spat : List Nat)
    (hs : stimulus.shape = T :: spat) (hs2 : stimulus2.shape = T :: spat)
    (hw : rf.shape = K :: N :: spat) (hK : K < T) (t0 : Nat) (ht0 : t0 < T)
    (hagree : ∀ t, t ≤ t0 → ∀ j, j < spat.prod →
      stimulus2.get (t * spat.prod + j) = stimulus.get (t * spat.prod + j)) :
    ∃ A A2, encoder stimulus rf = .ok A ∧ encoder stimulus2 rf = .ok A2 ∧
      ∀ n, n < N → A2.get (t0 * N + n) = A.get (t0 * N + n) := by
  refine ⟨_, _, encoder_ok_eq stimulus rf T K N spat hs hw hK,
    encoder_ok_eq stimulus2 rf T K N spat hs2 hw hK, fun n hn => ?_⟩
  show (((List.range (T * N)).map fun i =>
      encoderEntry stimulus2 rf K N spat.prod (i / N) (i % N)).getD (t0 * N + n) 0) =
    (((List.range (T * N)).map fun i =>
      encoderEntry stimulus rf K N spat.prod (i / N) (i % N)).getD (t0 * N + n) 0)
  rw [map_range_getD _ _ _ (rowcol_lt t0 n T N ht0 hn),
    map_range_getD _ _ _ (rowcol_lt t0 n T N ht0 hn),
    rowcol_div t0 n N hn, rowcol_mod t0 n N hn]
  unfold encoderEntry convEntry
  refine Finset.sum_congr rfl fun j hj => Finset.sum_congr rfl fun k _ => ?_
  split
  · rename_i hkt
    rw [hagree (t0 - k) (by omega) j (Finset.mem_range.mp hj)]
  · rfl

/-- Witness for C7: stimuli `[1, 2, 3, 9]` and `[1, 2, 3, 4]` agree up to
`t0 = 2` and give the same activity row there. -/
theorem encoder_causality_witness :
    ∃ A A2, encoder ⟨[4], [1, 2, 3, 4]⟩ ⟨[2, 1], [1, 2]⟩ = .ok A ∧
      encoder ⟨[4], [1, 2, 3, 9]⟩ ⟨[2, 1], [1, 2]⟩ = .ok A2 ∧
      ∀ n, n < 1 → A2.get (2 * 1 + n) = A.get (2 * 1 + n) :=
  encoder_causality ⟨[4], [1, 2, 3, 4]⟩ ⟨[4], [1, 2, 3, 9]⟩ ⟨[2, 1], [1, 2]⟩ 4 2 1 []
    rfl rfl rfl (by omega) 2 (by omega)
    (by
      intro t htle j hj
      have hj0 : j = 0 := by simp only [List.prod_nil] at hj; omega
      subst hj0
      interval_cases t <;> rfl)

/-- Every entry read from an all-zero buffer is zero. -/
lemma all_zero_get (a : NDArray) (h : ∀ q ∈ a.data, q = 0) (i : Nat) : a.get i = 0 := by
  unfold NDArray.get
  rcases Nat.lt_or_ge i a.data.length with hlt | hge
  · rw [List.getD_eq_getElem?_getD, List.getElem?_eq_getElem hlt]
    exact h _ (List.getElem_mem hlt)
  · rw [List.getD_eq_getElem?_getD, List.getElem?_eq_none hge]
    rfl

/-- Claim C8 (annihilator laws): with compatible shapes, an all-zero
kernel produces all-zero activity for any stimulus, and an all-zero
stimulus produces all-zero activity for any kernel. -/
theorem encoder_zero_laws (stimulus rf : NDArray) (T K N : Nat) (spat : List Nat)
    (hs : stimulus.shape = T :: spat) (hw : rf.shape = K :: N :: spat) (hK : K < T) :
    ((∀ q ∈ rf.data, q = 0) →
      ∃ A, encoder stimulus rf = .ok A ∧ ∀ q ∈ A.data, q = 0) ∧
    ((∀ q ∈ stimulus.data, q = 0) →
      ∃ A, encoder stimulus rf = .ok A ∧ ∀ q ∈ A.data, q = 0) := by
  constructor
  · intro hz
    refine ⟨_, encoder_ok_eq stimulus rf T K N spat hs hw hK, fun q hq => ?_⟩
    obtain ⟨i, _, rfl⟩ := List.mem_map.mp hq
    unfold encoderEntry convEntry
    refine Finset.sum_eq_zero fun j _ => Finset.sum_eq_zero fun k _ => ?_
    split
    · rw [all_zero_get rf hz]
      ring
    · rfl
  · intro hz
    refine ⟨_, encoder_ok_eq stimulus rf T K N spat hs hw hK, fun q hq => ?_⟩
    obtain ⟨i, _, rfl⟩ := List.mem_map.mp hq
    unfold encoderEntry convEntry
    refine Finset.sum_eq_zero fun j _ => Finset.sum_eq_zero fun k _ => ?_
    split
    · rw [all_zero_get stimulus hz]
      ring
    · rfl

/-- Witness for C8 at a concrete stimulus `[1, 2, 3]` and all-zero kernel
of shape `(2, 1)`. -/
theorem encoder_zero_laws_witness :
    ((∀ q ∈ (⟨[2, 1], [0, 0]⟩ : NDArray).data, q = 0) →
      ∃ A, encoder ⟨[3], [1, 2, 3]⟩ ⟨[2, 1], [0, 0]⟩ = .ok A ∧ ∀ q ∈ A.data, q = 0) ∧
    ((∀ q ∈ (⟨[3], [1, 2, 3]⟩ : NDArray).data, q = 0) →
      ∃ A, encoder ⟨[3], [1, 2, 3]⟩ ⟨[2, 1], [0, 0]⟩ = .ok A ∧ ∀ q ∈ A.data, q = 0) :=
  encoder_zero_laws ⟨[3], [1, 2, 3]⟩ ⟨[2, 1], [0, 0]⟩ 3 2 1 [] rfl rfl (by omega)

/-- Claim C9 (concrete example): the stimulus `[1,2,3,4,5,6]` encoded with
the single-neuron kernel `[0.5, 0.25, 0.25]` of shape `(3, 1)` gives
`[0.25, 0.75, 1.75, 2.75, 3.75, 4.75]` of shape `(6, 1)`. -/
theorem encoder_concrete_example :
    encoder ⟨[6], [1, 2, 3, 4, 5, 6]⟩ ⟨[3, 1], [1/2, 1/4, 1/4]⟩ =
      .ok ⟨[6, 1], [1/4, 3/4, 7/4, 11/4, 15/4, 19/4]⟩ := by
  simp only [encoder, encoderEntry, convEntry, NDArray.get, NDArray.ndim]
  norm_num [List.range_succ, Finset.sum_range_succ]

/-- Claim C5 (amended): for a stimulus of shape `(T, *spatial)`, `encoder`
accepts exactly the kernels with one more axis than the stimulus, equal
spatial shape, and `K < T` (strictly); every other pair raises an
AssertionError.  (The original claim said `K ≤ T` is accepted; the code
rejects `K = T`.) -/
theorem encoder_validation_iff (stimulus rf : NDArray) (T : Nat) (spat : List Nat)
    (hs : stimulus.shape = T :: spat) :
    ((∃ A, encoder stimulus rf = .ok A) ↔
      (rf.ndim = stimulus.ndim + 1 ∧ stimulus.shape.drop 1 = rf.shape.drop 2 ∧
        rf.shape.headD 0 < T)) ∧
    ((∃ m, encoder stimulus rf = .error (.assertionError m)) ↔
      ¬(rf.ndim = stimulus.ndim + 1 ∧ stimulus.shape.drop 1 = rf.shape.drop 2 ∧
        rf.shape.headD 0 < T)) := by
  have hnd : stimulus.ndim = spat.length + 1 := by
    rw [NDArray.ndim, hs]
    rfl
  have hlen : rf.shape.length = spat.length + 2 ∨ rf.ndim ≠ stimulus.ndim + 1 := by
    rcases Decidable.em (rf.ndim = stimulus.ndim + 1) with he | he
    · left
      have h1w := he
      rw [NDArray.ndim, NDArray.ndim, hs] at h1w
      simpa using h1w
    · exact Or.inr he
  rcases Decidable.em (rf.ndim = stimulus.ndim + 1) with h1 | h1
  · rcases Decidable.em (stimulus.shape.drop 1 = rf.shape.drop 2) with h2 | h2
    · have h2s : spat = rf.shape.drop 2 := by
        have h2w := h2
        rw [hs] at h2w
        simpa using h2w
      rcases Decidable.em (rf.shape.headD 0 < T) with h3 | h3
      · have he : encoder stimulus rf = .ok ⟨[T, (rf.shape.drop 1).headD 0],
            (List.range (T * (rf.shape.drop 1).headD 0)).map fun i =>
              encoderEntry stimulus rf (rf.shape.headD 0) ((rf.shape.drop 1).headD 0)
                spat.prod (i / (rf.shape.drop 1).headD 0) (i % (rf.shape.drop 1).headD 0)⟩ := by
          simp only [encoder, h1, hs]
          rw [if_neg (by omega), if_neg (by simp [h2s]), if_pos h3]
        rw [he]
        constructor
        · exact ⟨fun _ => ⟨h1, h2, h3⟩, fun _ => ⟨_, rfl⟩⟩
        · exact ⟨fun ⟨m, hm⟩ => absurd hm (by simp), fun hc => absurd ⟨h1, h2, h3⟩ hc⟩
      · have he : encoder stimulus rf =
            .error (.assertionError "Stimulus length must be greater than receptive field length") := by
          simp only [encoder, h1, hs]
          rw [if_neg (by omega), if_neg (by simp [h2s]), if_neg (by omega)]
        rw [he]
        constructor
        · exact ⟨fun ⟨A, hA⟩ => absurd hA (by simp), fun hc => absurd hc.2.2 h3⟩
        · exact ⟨fun _ hc => h3 hc.2.2, fun _ => ⟨_, rfl⟩⟩
    · have hspat : 1 < stimulus.ndim := by
        rcases List.eq_nil_or_concat spat with hemp | _
        · exfalso
          apply h2
          rcases hlen with hlen | hlen
          · subst hemp
            simp only [List.length_nil] at hlen
            rw [hs]
            have hd2 : List.drop 2 rf.shape = [] := List.drop_eq_nil_of_le (by omega)
            rw [hd2]
            rfl
          · exact absurd h1 hlen
        · rename_i hcc
          obtain ⟨l, a, rfl⟩ := hcc
          rw [hnd]
          simp
      have he : encoder stimulus rf =
          .error (.assertionError "Stimulus and receptive field must have the same spatial dimensions") := by
        simp only [encoder]
        rw [if_neg (by omega), if_pos ⟨hspat, h2⟩]
      rw [he]
      constructor
      · exact ⟨fun ⟨A, hA⟩ => absurd hA (by simp), fun hc => absurd hc.2.1 h2⟩
      · exact ⟨fun _ hc => h2 hc.2.1, fun _ => ⟨_, rfl⟩⟩
  · have he : encoder stimulus rf =
        .error (.assertionError "Dimensions of arrays are not compatible") := by
      simp only [encoder]
      rw [if_pos (by omega)]
    rw [he]
    constructor
    · exact ⟨fun ⟨A, hA⟩ => absurd hA (by simp), fun hc => absurd hc.1 h1⟩
    · exact ⟨fun _ hc => h1 hc.1, fun _ => ⟨_, rfl⟩⟩

/-- Witness for C5 at a concrete accepted pair (`T = 3`, `K = 2`). -/
theorem encoder_validation_iff_witness :
    ((∃ A, encoder ⟨[3], [1, 2, 3]⟩ ⟨[2, 1], [1, 1]⟩ = .ok A) ↔
      (NDArray.ndim ⟨[2, 1], [1, 1]⟩ = NDArray.ndim ⟨[3], [1, 2, 3]⟩ + 1 ∧
        List.drop 1 (NDArray.shape ⟨[3], [1, 2, 3]⟩) =
          List.drop 2 (NDArray.shape ⟨[2, 1], [1, 1]⟩) ∧
        List.headD (NDArray.shape ⟨[2, 1], [1, 1]⟩) 0 < 3)) ∧
    ((∃ m, encoder ⟨[3], [1, 2, 3]⟩ ⟨[2, 1], [1, 1]⟩ = .error (.assertionError m)) ↔
      ¬(NDArray.ndim ⟨[2, 1], [1, 1]⟩ = NDArray.ndim ⟨[3], [1, 2, 3]⟩ + 1 ∧
        List.drop 1 (NDArray.shape ⟨[3], [1, 2, 3]⟩) =
          List.drop 2 (NDArray.shape ⟨[2, 1], [1, 1]⟩) ∧
        List.headD (NDArray.shape ⟨[2, 1], [1, 1]⟩) 0 < 3)) :=
  encoder_validation_iff ⟨[3], [1, 2, 3]⟩ ⟨[2, 1], [1, 1]⟩ 3 [] rfl

/-- Counterexample to C5 as stated: a kernel with `K = T = 3`, matching
rank and spatial shape, is rejected by the code even though the claim
says every pair with `K ≤ T` is accepted. -/
theorem encoder_K_eq_T_rejected_cex :
    (NDArray.ndim ⟨[3, 1], [5, 6, 7]⟩ = NDArray.ndim ⟨[3], [1, 2, 3]⟩ + 1) ∧
    (List.drop 1 (NDArray.shape ⟨[3], [1, 2, 3]⟩) =
      List.drop 2 (NDArray.shape ⟨[3, 1], [5, 6, 7]⟩)) ∧
    (List.headD (NDArray.shape ⟨[3, 1], [5, 6, 7]⟩) 0 ≤ 3) ∧
    encoder ⟨[3], [1, 2, 3]⟩ ⟨[3, 1], [5, 6, 7]⟩ =
      .error (.assertionError "Stimulus length must be greater than receptive field length") := by
  refine ⟨rfl, rfl, by decide, ?_⟩
  decide

/-- Claim C4 (amended): every input triple that passes the three asserts
of `receptive_field` makes the call raise an unhandled exception and
never return a kernel array — a NameError (from the undefined name `D`)
whenever `kernel_size` is nonnegative and the STA-loop broadcast is
well-formed (always the case for 1-D stimuli), and a ValueError
otherwise.  (The original claim said the exception is always a
NameError.) -/
theorem receptive_field_always_raises (stimulus activity : NDArray)
    (kernel_size : Int) (T : Nat) (spat : List Nat)
    (hs : stimulus.shape = T :: spat) (h1 : activity.ndim = 2)
    (h2 : activity.shape.headD 0 = T) (h3 : kernel_size < (T : Int)) :
    ((receptive_field stimulus activity kernel_size =
        .error (.nameError "NameError: name D is not defined")) ∨
      (∃ m, receptive_field stimulus activity kernel_size = .error (.valueError m))) ∧
    (0 ≤ kernel_size ∧
        (spat = [] ∨ spat.getLastD 0 = (activity.shape.drop 1).headD 0 ∨
          (activity.shape.drop 1).headD 0 = 1) →
      receptive_field stimulus activity kernel_size =
        .error (.nameError "NameError: name D is not defined")) := by
  rcases Decidable.em (kernel_size < 0) with hneg | hneg
  · have he : receptive_field stimulus activity kernel_size =
        .error (.valueError "negative dimensions are not allowed") := by
      simp only [receptive_field, hs]
      rw [if_neg (by omega), if_neg (by omega), if_neg (by omega), if_pos hneg]
    exact ⟨Or.inr ⟨_, he⟩, fun hc => absurd hneg (by omega)⟩
  · rcases Decidable.em (spat ≠ [] ∧ spat.getLastD 0 ≠ (activity.shape.drop 1).headD 0 ∧
        (activity.shape.drop 1).headD 0 ≠ 1) with hbc | hbc
    · have he : receptive_field stimulus activity kernel_size =
          .error (.valueError "operands could not be broadcast together") := by
        simp only [receptive_field, hs]
        rw [if_neg (by omega), if_neg (by omega), if_neg (by omega), if_neg hneg,
          if_pos hbc]
      refine ⟨Or.inr ⟨_, he⟩, fun hc => ?_⟩
      rcases hc.2 with h | h | h
      · exact absurd h hbc.1
      · exact absurd h hbc.2.1
      · exact absurd h hbc.2.2
    · have he : receptive_field stimulus activity kernel_size =
          .error (.nameError "NameError: name D is not defined") := by
        simp only [receptive_field, hs]
        rw [if_neg (by omega), if_neg (by omega), if_neg (by omega), if_neg hneg,
          if_neg hbc]
      exact ⟨Or.inl he, fun _ => he⟩

/-- Witness for C4 at a concrete assert-passing input. -/
theorem receptive_field_always_raises_witness :
    ((receptive_field ⟨[3], [1, 2, 3]⟩ ⟨[3, 1], [0, 1, 2]⟩ 2 =
        .error (.nameError "NameError: name D is not defined")) ∨
      (∃ m, receptive_field ⟨[3], [1, 2, 3]⟩ ⟨[3, 1], [0, 1, 2]⟩ 2 =
        .error (.valueError m))) ∧
    (0 ≤ (2 : Int) ∧
        (([] : List Nat) = [] ∨ List.getLastD ([] : List Nat) 0 =
            (List.drop 1 (NDArray.shape ⟨[3, 1], [0, 1, 2]⟩)).headD 0 ∨
          (List.drop 1 (NDArray.shape ⟨[3, 1], [0, 1, 2]⟩)).headD 0 = 1) →
      receptive_field ⟨[3], [1, 2, 3]⟩ ⟨[3, 1], [0, 1, 2]⟩ 2 =
        .error (.nameError "NameError: name D is not defined")) :=
  receptive_field_always_raises ⟨[3], [1, 2, 3]⟩ ⟨[3, 1], [0, 1, 2]⟩ 2 3 []
    rfl rfl rfl (by decide)

/-- Counterexample to C4 as stated: with `kernel_size = -1` the asserts
all pass, yet the raised exception is a ValueError from
`np.zeros((K, N) + spatial)`, not a NameError. -/
theorem receptive_field_negative_K_valueError_cex :
    (NDArray.ndim ⟨[2, 1], [1, 1]⟩ = 2) ∧
    (List.headD (NDArray.shape ⟨[2, 1], [1, 1]⟩) 0 = 2) ∧ ((-1 : Int) < (2 : Int)) ∧
    receptive_field ⟨[2], [1, 2]⟩ ⟨[2, 1], [1, 1]⟩ (-1) =
      .error (.valueError "negative dimensions are not allowed") ∧
    isNameErrorResult (receptive_field ⟨[2], [1, 2]⟩ ⟨[2, 1], [1, 1]⟩ (-1)) = false := by
  decide

/-- Claim C6 (amended): of the four claimed precondition checks of the
kernel estimator, exactly three are enforced — an AssertionError is
raised precisely when the activity is not 2-D, the time lengths differ,
or `kernel_size ≥ T`.  A non-positive (or non-integral) `kernel_size` is
not validated: it flows into the body and surfaces there as a ValueError
or NameError, not as a descriptive precondition error. -/
theorem receptive_field_assert_iff (stimulus activity : NDArray)
    (kernel_size : Int) (T : Nat) (spat : List Nat)
    (hs : stimulus.shape = T :: spat) :
    (∃ m, receptive_field stimulus activity kernel_size = .error (.assertionError m)) ↔
      (activity.ndim ≠ 2 ∨ activity.shape.headD 0 ≠ T ∨ (T : Int) ≤ kernel_size) := by
  rcases Decidable.em (activity.ndim = 2) with h1 | h1
  · rcases Decidable.em (activity.shape.headD 0 = T) with h2 | h2
    · rcases Decidable.em (kernel_size < (T : Int)) with h3 | h3
      · have hno : ∀ m, receptive_field stimulus activity kernel_size ≠
            .error (.assertionError m) := by
          have := receptive_field_always_raises stimulus activity kernel_size T spat
            hs h1 h2 h3
          rcases this.1 with he | ⟨m2, he⟩ <;> intro m hm <;> rw [he] at hm <;> cases hm
        constructor
        · rintro ⟨m, hm⟩
          exact absurd hm (hno m)
        · rintro (h | h | h)
          · exact absurd h1 h
          · exact absurd h2 h
          · exact absurd h3 (by omega)
      · have he : receptive_field stimulus activity kernel_size =
            .error (.assertionError "Kernel size must be less than the stimulus length") := by
          simp only [receptive_field, hs]
          rw [if_neg (by omega), if_neg (by omega), if_pos h3]
        rw [he]
        exact ⟨fun _ => Or.inr (Or.inr (by omega)), fun _ => ⟨_, rfl⟩⟩
    · have he : receptive_field stimulus activity kernel_size =
          .error (.assertionError "Stimulus and activity must have the same time dimension") := by
        simp only [receptive_field, hs]
        rw [if_neg (by omega), if_pos (by omega)]
      rw [he]
      exact ⟨fun _ => Or.inr (Or.inl (by omega)), fun _ => ⟨_, rfl⟩⟩
  · have he : receptive_field stimulus activity kernel_size =
        .error (.assertionError "Activity must be a 2D array with shape (T, N)") := by
      simp only [receptive_field]
      rw [if_pos h1]
    rw [he]
    exact ⟨fun _ => Or.inl h1, fun _ => ⟨_, rfl⟩⟩

/-- Witness for C6 at a concrete rejected input (3-D activity). -/
theorem receptive_field_assert_iff_witness :
    (∃ m, receptive_field ⟨[2], [1, 2]⟩ ⟨[2, 1, 1], [1, 1]⟩ 1 =
        .error (.assertionError m)) ↔
      (NDArray.ndim ⟨[2, 1, 1], [1, 1]⟩ ≠ 2 ∨
        List.headD (NDArray.shape ⟨[2, 1, 1], [1, 1]⟩) 0 ≠ 2 ∨ ((2 : Int) ≤ 1)) :=
  receptive_field_assert_iff ⟨[2], [1, 2]⟩ ⟨[2, 1, 1], [1, 1]⟩ 1 2 [] rfl

/-- Counterexample to C6 as stated: `kernel_size = 0` is not castable to a
positive integer, yet the call passes every precondition check and fails
only deep in the body with the generic NameError — no descriptive error
is raised eagerly. -/
theorem receptive_field_K_zero_not_validated_cex :
    (¬ (0 : Int) < 0) ∧
    receptive_field ⟨[3], [1, 2, 3]⟩ ⟨[3, 1], [1, 1, 1]⟩ 0 =
      .error (.nameError "NameError: name D is not defined") ∧
    (∀ e, receptive_field ⟨[3], [1, 2, 3]⟩ ⟨[3, 1], [1, 1, 1]⟩ 0 ≠
      .error (.assertionError e)) := by
  refine ⟨by decide, by decide, fun e hm => ?_⟩
  rw [show receptive_field ⟨[3], [1, 2, 3]⟩ ⟨[3, 1], [1, 1, 1]⟩ 0 =
    .error (.nameError "NameError: name D is not defined") from by decide] at hm
  cases hm

/-- Claim C1 (code bug): at a concrete valid round-trip input — stimulus
`[1, -1, 2, 0, 1]`, kernel `[[0.5], [0.25]]` of shape `(2, 1)`, activity
produced by `encoder` — the kernel estimator raises NameError instead of
recovering the kernel; it can never return on any input (see the C4
theorem), so the round-trip property fails on the code as written even
though it is the documented intent (docstring of `receptive_field` and
tests `test_rf_1D`, `test_rf_multiple_neurons`). -/
theorem round_trip_estimator_raises :
    ∃ A, encoder ⟨[5], [1, -1, 2, 0, 1]⟩ ⟨[2, 1], [1/2, 1/4]⟩ = .ok A ∧
      receptive_field ⟨[5], [1, -1, 2, 0, 1]⟩ A 2 =
        .error (.nameError "NameError: name D is not defined") := by
  refine ⟨⟨[5, 1], [1/4, 1/4, 0, 1, 1/4]⟩, ?_, by decide⟩
  simp only [encoder, encoderEntry, convEntry, NDArray.get, NDArray.ndim]
  norm_num [List.range_succ, Finset.sum_range_succ]

/-- Claim C2 (code bug): at a concrete valid input the kernel estimator
raises NameError and returns no `(K, N, *spatial)` array at all — the
normal-equations computation described by the spec (and by the docstring)
is never performed. -/
theorem receptive_field_no_ols_result :
    receptive_field ⟨[4], [1, 0, 2, 1]⟩ ⟨[4, 1], [0, 1, 1, 0]⟩ 2 =
      .error (.nameError "NameError: name D is not defined") ∧
    ∀ A, receptive_field ⟨[4], [1, 0, 2, 1]⟩ ⟨[4, 1], [0, 1, 1, 0]⟩ 2 ≠ .ok A := by
  refine ⟨by decide, fun A hm => ?_⟩
  rw [show receptive_field ⟨[4], [1, 0, 2, 1]⟩ ⟨[4, 1], [0, 1, 1, 0]⟩ 2 =
    .error (.nameError "NameError: name D is not defined") from by decide] at hm
  cases hm
